import Mathlib

/-!
Verification development for the resilient multi-source aggregation engine
(`go-api`): the relay failover client with its positive and negative caches
(`relay.go`), the per-source health tracker (`data_source.go`), the mempool
watcher's rolling buffer and reconnect backoff (`mempool_ws.go`), the swap
extractor and sandwich detector (`sandwich.go`), the snapshot whole-response
cache (`snapshot.go`), and the scan-cap configuration (`sandwich.go`).

Modelling conventions: instants are natural-number seconds (`0` models the Go
zero `time.Time`; `t.IsZero()` becomes `t = 0`); durations are naturals in
seconds or, where the source uses a finer unit, that unit is noted at the
definition; Go byte slices and `json.RawMessage` values are `String`s; a Go
`error` is `Option String` (`none` = `nil`); Go maps are functions into
`Option`.  Network and goroutine effects are passed in explicitly as oracles,
so every definition is an executable pure function of its inputs.
-/

/- ## Cache layer of `relay.go` -/

/-- Positive-cache entry (`relayEntry` in `relay.go`): response body plus
absolute expiry instant. -/
structure relayEntry where
  body : String
  expires : Nat
deriving Repr, DecidableEq

/-- The positive cache map `relayMemo : map[string]relayEntry`. -/
abbrev RelayMemo := String → Option relayEntry

/-- Model of `relayCacheGet`: a non-expired hit returns the body; an expired
hit deletes the entry and misses; absence misses.  Returns the looked-up value
together with the cache after the lazy eviction side effect. -/
def relayCacheGet (memo : RelayMemo) (now : Nat) (key : String) :
    Option String × RelayMemo :=
  match memo key with
  | some e =>
      if now < e.expires then (some e.body, memo)
      else (none, fun k => if k = key then none else memo k)
  | none => (none, memo)

/-- Model of `relayCacheSet`: stores the body with expiry `now + ttl`
(`relayTTL` is passed explicitly as `ttl`). -/
def relayCacheSet (memo : RelayMemo) (now : Nat) (ttl : Nat)
    (key body : String) : RelayMemo :=
  fun k => if k = key then some ⟨body, now + ttl⟩ else memo k

/-- Negative-cache map `relayFailMemo : map[string]relayFailEntry`; the entry
carries only its expiry instant. -/
abbrev RelayFailMemo := String → Option Nat

/-- Model of `relayCacheMarkFail`: records that `key` failed, expiring at
`now + errTTL` (`relayErrTTL` is passed explicitly as `errTTL`). -/
def relayCacheMarkFail (memo : RelayFailMemo) (now : Nat) (errTTL : Nat)
    (key : String) : RelayFailMemo :=
  fun k => if k = key then some (now + errTTL) else memo k

/-- Model of `relayFailRecently`: reports whether `key` is still in backoff,
lazily deleting an expired entry; returns the flag and the updated map. -/
def relayFailRecently (memo : RelayFailMemo) (now : Nat) (key : String) :
    Bool × RelayFailMemo :=
  match memo key with
  | some expires =>
      if now < expires then (true, memo)
      else (false, fun k => if k = key then none else memo k)
  | none => (false, memo)

/- ## Health tracker of `data_source.go` -/

/-- Success-recency window used by `BaseDataSource.IsHealthy`: 5 minutes,
in seconds. -/
def healthWindow : Nat := 300

/-- Model of the `BaseDataSource` struct.  `lastError` is the Go `error`
(`none` = `nil`); `lastSuccess = 0` models the zero `time.Time`. -/
structure BaseDataSource where
  name : String
  lastError : Option String
  lastSuccess : Nat
  cacheKey : String
  ttl : Nat
deriving Repr, DecidableEq

/-- Model of `NewBaseDataSource`: fresh record with no error and the zero
success timestamp. -/
def NewBaseDataSource (name cacheKey : String) (ttl : Nat) : BaseDataSource :=
  ⟨name, none, 0, cacheKey, ttl⟩

/-- Model of `BaseDataSource.SetError`: stores the error (possibly `nil`) and
clears the success timestamp back to the zero time. -/
def BaseDataSource.SetError (b : BaseDataSource) (err : Option String) :
    BaseDataSource :=
  { b with lastError := err, lastSuccess := 0 }

/-- Model of `BaseDataSource.SetSuccess`: stamps the current instant and
clears the error. -/
def BaseDataSource.SetSuccess (b : BaseDataSource) (now : Nat) :
    BaseDataSource :=
  { b with lastSuccess := now, lastError := none }

/-- Model of `BaseDataSource.IsHealthy`: healthy when no attempt was ever
recorded (zero success time and nil error), otherwise exactly when the last
success is within the 5-minute window.  `time.Since(lastSuccess)` is the
truncated difference `now - lastSuccess`. -/
def BaseDataSource.IsHealthy (b : BaseDataSource) (now : Nat) : Bool :=
  if b.lastSuccess = 0 ∧ b.lastError = none then true
  else decide (now - b.lastSuccess < healthWindow)

/-- Modelled from the spec (for comparison with the code): the spec's derived
predicate `healthy = lastError == null OR now - lastSuccess < 5min`. -/
def healthySpecPredicate (b : BaseDataSource) (now : Nat) : Bool :=
  decide (b.lastError = none) || decide (now - b.lastSuccess < healthWindow)

/- ## Theorems: claims C2, C4, C5 -/

/-- C2: for every cache key, a get after a set while `now < expiresAt` returns
exactly the bytes that were set; a get at or after expiry (`expiresAt ≤ now`)
returns not-found and removes the entry from the cache. -/
theorem relayCache_get_after_set (memo : RelayMemo) (key body : String)
    (t0 t1 : Nat) (ttl : Nat) :
    (t1 < t0 + ttl →
      relayCacheGet (relayCacheSet memo t0 ttl key body) t1 key
        = (some body, relayCacheSet memo t0 ttl key body)) ∧
    (t0 + ttl ≤ t1 →
      (relayCacheGet (relayCacheSet memo t0 ttl key body) t1 key).1 = none ∧
      (relayCacheGet (relayCacheSet memo t0 ttl key body) t1 key).2 key = none) := by
  constructor
  · intro h
    simp [relayCacheGet, relayCacheSet, h]
  · intro h
    simp [relayCacheGet, relayCacheSet, Nat.not_lt.mpr h]

/-- Witness for C2 at a concrete key, body and timestamps. -/
theorem relayCache_get_after_set_witness :
    relayCacheGet (relayCacheSet (fun _ => none) 100 20 "/p" "body") 110 "/p"
        = (some "body", relayCacheSet (fun _ => none) 100 20 "/p" "body") ∧
    (relayCacheGet (relayCacheSet (fun _ => none) 100 20 "/p" "body") 120 "/p").1 = none ∧
    (relayCacheGet (relayCacheSet (fun _ => none) 100 20 "/p" "body") 120 "/p").2 "/p" = none := by
  refine ⟨(relayCache_get_after_set (fun _ => none) "/p" "body" 100 110 20).1 (by decide),
    (relayCache_get_after_set (fun _ => none) "/p" "body" 100 120 20).2 (by decide)⟩

/-- C4 counterexample: a record whose error is `nil` but whose last success is
older than the window (reachable by `SetSuccess` followed by silence) is
healthy under the spec's predicate yet unhealthy under the code's
`IsHealthy`. -/
theorem isHealthy_spec_predicate_counterexample :
    healthySpecPredicate ⟨"relay", none, 100, "relay_health", 30⟩ 1000 = true ∧
    BaseDataSource.IsHealthy ⟨"relay", none, 100, "relay_health", 30⟩ 1000 = false := by
  decide

/-- C4 (amended): `IsHealthy` is true iff the record has no attempts yet
(zero success timestamp and nil error) or the last success is within the
5-minute window; in particular a fresh record with no attempts is healthy. -/
theorem isHealthy_characterization (b : BaseDataSource) (now : Nat) :
    (b.IsHealthy now = true ↔
      ((b.lastSuccess = 0 ∧ b.lastError = none) ∨ now - b.lastSuccess < healthWindow)) ∧
    (NewBaseDataSource b.name b.cacheKey b.ttl).IsHealthy now = true := by
  constructor
  · by_cases h : b.lastSuccess = 0 ∧ b.lastError = none
    · simp [BaseDataSource.IsHealthy, h]
    · simp [BaseDataSource.IsHealthy, h]
  · simp [BaseDataSource.IsHealthy, NewBaseDataSource]

/-- C5 counterexample: one `SetError` right after a success makes `IsHealthy`
false at that very instant (because `SetError` clears `lastSuccess` to the
zero time), refuting the claim that it only becomes false after the
success-recency window elapses. -/
theorem setError_immediately_unhealthy_counterexample :
    BaseDataSource.IsHealthy
      (BaseDataSource.SetError
        (BaseDataSource.SetSuccess (NewBaseDataSource "relay" "relay_health" 30) 600)
        (some "boom")) 600 = false := by
  decide

/-- C5 (amended): after `SetError` with a non-nil error, `IsHealthy` is false
immediately (at any instant at least the window past the zero time, which any
realistic clock is), because the success timestamp is cleared; and one
`SetSuccess` after an error immediately makes `IsHealthy` true. -/
theorem health_transitions_amended (b c : BaseDataSource) (e : String)
    (now now2 : Nat) (h : healthWindow ≤ now) :
    (b.SetError (some e)).IsHealthy now = false ∧
    (c.SetSuccess now2).IsHealthy now2 = true := by
  have h300 : 300 ≤ now := h
  constructor
  · simp only [BaseDataSource.IsHealthy, BaseDataSource.SetError]
    rw [if_neg (by simp)]
    simp only [decide_eq_false_iff_not, healthWindow]
    omega
  · by_cases h0 : now2 = 0
    · simp [BaseDataSource.IsHealthy, BaseDataSource.SetSuccess, h0]
    · simp only [BaseDataSource.IsHealthy, BaseDataSource.SetSuccess]
      rw [if_neg (by simp [h0])]
      simp only [decide_eq_true_eq, healthWindow]
      omega

/-- Witness for C5 (amended) at a concrete record, error and instants. -/
theorem health_transitions_amended_witness :
    (BaseDataSource.IsHealthy
      (BaseDataSource.SetError (NewBaseDataSource "rpc" "rpc_health" 30) (some "down")) 600
        = false) ∧
    (BaseDataSource.IsHealthy
      (BaseDataSource.SetSuccess (NewBaseDataSource "rpc" "rpc_health" 30) 7) 7 = true) :=
  health_transitions_amended (NewBaseDataSource "rpc" "rpc_health" 30)
    (NewBaseDataSource "rpc" "rpc_health" 30) "down" 600 7 (by decide)

/- ## Failover client `relayGET` of `relay.go` -/

/-- Outcome of one HTTP attempt against a relay base: either the request could
not be created or transported (`reqError`, the two `continue`-before-response
paths), or a response with a status code and body arrived. -/
inductive netResult where
  | reqError (msg : String)
  | httpResp (status : Nat) (body : String)
deriving Repr, DecidableEq

/-- Mutable state touched by `relayGET`: the positive cache, the negative
cache, and the relay health record (`relayHealth`, modelled as always
non-nil). -/
structure RelayState where
  memo : RelayMemo
  failMemo : RelayFailMemo
  health : BaseDataSource

/-- Configuration of the failover client: the candidate base list
(`relayBases`), the iteration budget (`relayBudget`), and the two TTLs
(`relayTTL`, `relayErrTTL`). -/
structure RelayConfig where
  bases : List String
  budget : Nat
  ttl : Nat
  errTTL : Nat

/-- Errors returned by `relayGET`: the backoff short-circuit error, or the
aggregate all-candidates-failed error carrying the last per-candidate error
when there was one. -/
inductive relayError where
  | backoff
  | allFailed (lastErr : Option String)
deriving Repr, DecidableEq

/-- Result of a `relayGET` call: body or error, the number of network attempts
issued, and the state after the call. -/
structure RelayResult where
  body : Option String
  err : Option relayError
  attempts : Nat
  state : RelayState

/-- Terminal failure path of `relayGET` (reached when the candidate list is
exhausted or the budget check breaks the loop): mark the path in the negative
cache and return the aggregate error; health is updated only when a concrete
last error exists, exactly as in the source. -/
def relayGETfail (cfg : RelayConfig) (now : Nat) (path : String)
    (st : RelayState) (lastErr : Option String) (attempts : Nat) : RelayResult :=
  let fm := relayCacheMarkFail st.failMemo now cfg.errTTL path
  match lastErr with
  | some msg =>
      ⟨none, some (relayError.allFailed (some msg)), attempts,
        ⟨st.memo, fm, st.health.SetError (some ("all relays failed, last error: " ++ msg))⟩⟩
  | none =>
      ⟨none, some (relayError.allFailed none), attempts, ⟨st.memo, fm, st.health⟩⟩

/-- Candidate loop of `relayGET`.  `oracle` gives each base's response,
`elapsed k` the time elapsed when the budget is checked before the `k`-th
attempt.  A transport-level failure `continue`s without touching the cache; a
response is stored only when it is 2xx with a non-blank body; after any
response the loop re-reads the cache and returns on a hit, as the source
does. -/
def relayGETloop (cfg : RelayConfig) (oracle : String → netResult)
    (elapsed : Nat → Nat) (now : Nat) (path : String) :
    List String → Nat → RelayState → Option String → Nat → RelayResult
  | [], _, st, lastErr, attempts => relayGETfail cfg now path st lastErr attempts
  | base :: rest, k, st, lastErr, attempts =>
      if cfg.budget < elapsed k then relayGETfail cfg now path st lastErr attempts
      else
        match oracle base with
        | netResult.reqError msg =>
            relayGETloop cfg oracle elapsed now path rest (k + 1) st (some msg) (attempts + 1)
        | netResult.httpResp status body =>
            let st1 : RelayState :=
              if status / 100 = 2 ∧ body.trim ≠ "" then
                { st with memo := relayCacheSet st.memo now cfg.ttl path body }
              else st
            let lastErr1 : Option String :=
              if status / 100 ≠ 2 then some ("non-2xx status from " ++ base)
              else if body.trim = "" then some ("empty response from " ++ base)
              else lastErr
            match relayCacheGet st1.memo now path with
            | (some hit, m) =>
                ⟨some hit, none, attempts + 1, ⟨m, st1.failMemo, st1.health.SetSuccess now⟩⟩
            | (none, m) =>
                relayGETloop cfg oracle elapsed now path rest (k + 1)
                  ⟨m, st1.failMemo, st1.health⟩ lastErr1 (attempts + 1)

/-- Model of `relayGET`: negative-cache short circuit, then positive-cache
lookup, then the candidate loop. -/
def relayGET (cfg : RelayConfig) (oracle : String → netResult)
    (elapsed : Nat → Nat) (st : RelayState) (now : Nat) (path : String) :
    RelayResult :=
  match relayFailRecently st.failMemo now path with
  | (true, fm) =>
      ⟨none, some relayError.backoff, 0,
        ⟨st.memo, fm, st.health.SetError (some "relay recently failed; backing off")⟩⟩
  | (false, fm) =>
      match relayCacheGet st.memo now path with
      | (some body, m) => ⟨some body, none, 0, ⟨m, fm, st.health⟩⟩
      | (none, m) =>
          relayGETloop cfg oracle elapsed now path cfg.bases 0 ⟨m, fm, st.health⟩ none 0

/-- C1: while a path has an unexpired negative-cache entry, `relayGET` returns
the backoff error with no body and issues zero network attempts, regardless of
the candidate list, the network's behavior, or the clock. -/
theorem relayGET_backoff_short_circuit (cfg : RelayConfig)
    (oracle : String → netResult) (elapsed : Nat → Nat) (st : RelayState)
    (now : Nat) (path : String) (texp : Nat)
    (hmem : st.failMemo path = some texp) (hlive : now < texp) :
    (relayGET cfg oracle elapsed st now path).body = none ∧
    (relayGET cfg oracle elapsed st now path).err = some relayError.backoff ∧
    (relayGET cfg oracle elapsed st now path).attempts = 0 := by
  simp [relayGET, relayFailRecently, hmem, hlive]

/-- Witness for C1: a concrete state whose negative cache still covers the
path. -/
theorem relayGET_backoff_short_circuit_witness :
    (relayGET ⟨["https://r1", "https://r2"], 2500, 20, 10⟩ (fun _ => netResult.reqError "down")
      (fun _ => 0)
      ⟨fun _ => none, fun k => if k = "/relay/v1/data" then some 50 else none,
        NewBaseDataSource "relay" "relay_health" 30⟩ 40 "/relay/v1/data").body = none ∧
    (relayGET ⟨["https://r1", "https://r2"], 2500, 20, 10⟩ (fun _ => netResult.reqError "down")
      (fun _ => 0)
      ⟨fun _ => none, fun k => if k = "/relay/v1/data" then some 50 else none,
        NewBaseDataSource "relay" "relay_health" 30⟩ 40 "/relay/v1/data").err
      = some relayError.backoff ∧
    (relayGET ⟨["https://r1", "https://r2"], 2500, 20, 10⟩ (fun _ => netResult.reqError "down")
      (fun _ => 0)
      ⟨fun _ => none, fun k => if k = "/relay/v1/data" then some 50 else none,
        NewBaseDataSource "relay" "relay_health" 30⟩ 40 "/relay/v1/data").attempts = 0 :=
  relayGET_backoff_short_circuit _ _ _ _ 40 "/relay/v1/data" 50 (by simp) (by decide)

/- ## Snapshot whole-response cache of `snapshot.go` -/

/-- Cached snapshot response (`snapshotEntry`): serialized body plus expiry
instant. -/
structure snapshotEntry where
  body : String
  expires : Nat
deriving Repr, DecidableEq

/-- The snapshot cache map `snapshotMemo : map[string]snapshotEntry`. -/
abbrev SnapshotMemo := String → Option snapshotEntry

/-- Model of `snapshotCacheGet`: fresh hit returns the cached bytes; an
expired entry is deleted and reported as a miss. -/
def snapshotCacheGet (memo : SnapshotMemo) (now : Nat) (key : String) :
    Option String × SnapshotMemo :=
  match memo key with
  | some e =>
      if now < e.expires then (some e.body, memo)
      else (none, fun k => if k = key then none else memo k)
  | none => (none, memo)

/-- Model of `snapshotCacheSet`: stores the serialized bytes with expiry
`now + ttl` (`snapshotTTL` is passed explicitly as `ttl`). -/
def snapshotCacheSet (memo : SnapshotMemo) (now ttl : Nat)
    (key body : String) : SnapshotMemo :=
  fun k => if k = key then some ⟨body, now + ttl⟩ else memo k

/-- Model of the cache key computed by `handleSnapshot`:
`fmt.Sprintf("limit=%d|sandwich=%v|block=%s", limit, includeSandwich, blockTag)`. -/
def snapshotCacheKey (limit : Nat) (includeSandwich : Bool) (blockTag : String) :
    String :=
  "limit=" ++ toString limit ++ "|sandwich="
    ++ (if includeSandwich then "true" else "false") ++ "|block=" ++ blockTag

/-- Abstraction of everything `handleSnapshot` does on a cache miss: the
serialized envelope it would produce (`""` models a marshal failure or empty
body) and how many upstream requests building it issues. -/
structure snapshotBuild where
  body : String
  upstreamCalls : Nat

/-- Result of one `handleSnapshot` call: the bytes written to the response,
the number of upstream requests issued, and the cache afterwards. -/
structure SnapshotResult where
  body : String
  upstreamCalls : Nat
  memo : SnapshotMemo

/-- Miss path of `handleSnapshot`: build, then cache the serialized bytes
under the key unless they are empty (the source skips `snapshotCacheSet` on a
marshal error or empty body). -/
def handleSnapshotBuild (m : SnapshotMemo) (now ttl : Nat) (key : String)
    (build : snapshotBuild) : SnapshotResult :=
  if build.body = "" then ⟨build.body, build.upstreamCalls, m⟩
  else ⟨build.body, build.upstreamCalls, snapshotCacheSet m now ttl key build.body⟩

/-- Model of `handleSnapshot` around its whole-response cache: a fresh cached
non-empty body is returned verbatim with zero upstream requests; otherwise the
snapshot is built and cached. -/
def handleSnapshot (memo : SnapshotMemo) (now ttl : Nat) (limit : Nat)
    (includeSandwich : Bool) (blockTag : String) (build : snapshotBuild) :
    SnapshotResult :=
  let key := snapshotCacheKey limit includeSandwich blockTag
  match snapshotCacheGet memo now key with
  | (some body, m) =>
      if body ≠ "" then ⟨body, 0, m⟩
      else handleSnapshotBuild m now ttl key build
  | (none, m) => handleSnapshotBuild m now ttl key build

/-- C8: if a first `handleSnapshot` call misses the cache and stores its
(non-empty) serialized result, a second call with identical parameters within
the snapshot TTL returns byte-identical output straight from the cache and
issues zero upstream requests, whatever the upstream world would have answered
the second time. -/
theorem handleSnapshot_cached_within_ttl (memo : SnapshotMemo)
    (t0 t1 ttl limit : Nat) (sw : Bool) (blockTag : String)
    (build1 build2 : snapshotBuild)
    (hmiss : memo (snapshotCacheKey limit sw blockTag) = none)
    (hbody : build1.body ≠ "") (hfresh : t1 < t0 + ttl) :
    (handleSnapshot memo t0 ttl limit sw blockTag build1).body = build1.body ∧
    (handleSnapshot (handleSnapshot memo t0 ttl limit sw blockTag build1).memo
        t1 ttl limit sw blockTag build2).body = build1.body ∧
    (handleSnapshot (handleSnapshot memo t0 ttl limit sw blockTag build1).memo
        t1 ttl limit sw blockTag build2).upstreamCalls = 0 := by
  have h1 : handleSnapshot memo t0 ttl limit sw blockTag build1
      = ⟨build1.body, build1.upstreamCalls,
          snapshotCacheSet memo t0 ttl (snapshotCacheKey limit sw blockTag) build1.body⟩ := by
    simp [handleSnapshot, snapshotCacheGet, hmiss, handleSnapshotBuild, hbody]
  refine ⟨by rw [h1], ?_, ?_⟩ <;>
    rw [h1] <;>
    simp [handleSnapshot, snapshotCacheGet, snapshotCacheSet, hfresh, hbody]

/-- Witness for C8 at concrete parameters, clock values and build outcomes. -/
theorem handleSnapshot_cached_within_ttl_witness :
    (handleSnapshot (fun _ => none) 100 30 10 true "latest" ⟨"{snapshot}", 4⟩).body
        = "{snapshot}" ∧
    (handleSnapshot (handleSnapshot (fun _ => none) 100 30 10 true "latest"
        ⟨"{snapshot}", 4⟩).memo 120 30 10 true "latest" ⟨"{other}", 4⟩).body
        = "{snapshot}" ∧
    (handleSnapshot (handleSnapshot (fun _ => none) 100 30 10 true "latest"
        ⟨"{snapshot}", 4⟩).memo 120 30 10 true "latest" ⟨"{other}", 4⟩).upstreamCalls = 0 :=
  handleSnapshot_cached_within_ttl (fun _ => none) 100 120 30 10 true "latest"
    ⟨"{snapshot}", 4⟩ ⟨"{other}", 4⟩ rfl (by decide) (by decide)

/- ## Swap extractor and sandwich detector of `sandwich.go` -/

/-- Model of the `swapEvent` struct: one swap occurrence with its position in
the block. -/
structure swapEvent where
  TxHash : String
  TxFrom : String
  Pool : String
  TxIndex : Nat
  LogIndex : Nat
deriving Repr, DecidableEq

/-- Model of the `sandwich` struct returned to callers. -/
structure sandwich where
  Pool : String
  Attacker : String
  Victim : String
  PreTx : String
  VictimTx : String
  PostTx : String
  Block : String
deriving Repr, DecidableEq

/-- One pool's scan loop from `detectSandwiches`, with fuel equal to the
sequence length (each step consumes at least one element).  A window
`(pre, victim, post)` with mismatched pools or a blank sender advances by one;
a match emits the sandwich and advances past all three consumed swaps
(`i += 2` plus the loop increment); otherwise the window advances by one. -/
def scanPoolAux (blockNum pool : String) : Nat → List swapEvent → List sandwich
  | 0, _ => []
  | fuel + 1, pre :: victim :: post :: rest =>
      if pre.Pool ≠ victim.Pool ∨ victim.Pool ≠ post.Pool then
        scanPoolAux blockNum pool fuel (victim :: post :: rest)
      else if pre.TxFrom = "" ∨ post.TxFrom = "" ∨ victim.TxFrom = "" then
        scanPoolAux blockNum pool fuel (victim :: post :: rest)
      else if pre.TxFrom = post.TxFrom ∧ pre.TxFrom ≠ victim.TxFrom then
        ⟨pool, pre.TxFrom, victim.TxFrom, pre.TxHash, victim.TxHash, post.TxHash, blockNum⟩
          :: scanPoolAux blockNum pool fuel rest
      else scanPoolAux blockNum pool fuel (victim :: post :: rest)
  | _ + 1, _ => []

/-- Scan of one pool's ordered swap sequence. -/
def scanPool (blockNum pool : String) (seq : List swapEvent) : List sandwich :=
  scanPoolAux blockNum pool seq.length seq

/-- One step of grouping a swap into the per-pool association list. -/
def groupAdd (acc : List (String × List swapEvent)) (s : swapEvent) :
    List (String × List swapEvent) :=
  if acc.any fun p => p.1 = s.Pool then
    acc.map fun p => if p.1 = s.Pool then (p.1, p.2 ++ [s]) else p
  else acc ++ [(s.Pool, [s])]

/-- Model of the `grouped` map built by `detectSandwiches`.  Go iterates its
map in unspecified order; this model fixes first-appearance order, which
coincides with the source's per-pool sequences and is order-irrelevant for the
single-pool inputs of the claims. -/
def groupByPool (swaps : List swapEvent) : List (String × List swapEvent) :=
  swaps.foldl groupAdd []

/-- Model of `detectSandwiches`: group by pool, then scan each pool's ordered
sequence. -/
def detectSandwiches (swaps : List swapEvent) (blockNum : String) :
    List sandwich :=
  (groupByPool swaps).foldr (fun g acc => scanPool blockNum g.1 g.2 ++ acc) []

/-- C3: in one pool, the sender pattern `[A,B,A]` yields exactly one sandwich
with attacker `A` and victim `B`; pairwise-distinct `[A,B,C]` yields none; and
`[A,B,A,B,A]` yields exactly one sandwich (the first triple), the scan having
advanced past all three consumed swaps. -/
theorem detectSandwiches_synthetic_triples :
    detectSandwiches
        [⟨"t1", "a", "p", 0, 0⟩, ⟨"t2", "b", "p", 1, 0⟩, ⟨"t3", "a", "p", 2, 0⟩] "7"
      = [⟨"p", "a", "b", "t1", "t2", "t3", "7"⟩] ∧
    detectSandwiches
        [⟨"t1", "a", "p", 0, 0⟩, ⟨"t2", "b", "p", 1, 0⟩, ⟨"t3", "c", "p", 2, 0⟩] "7"
      = [] ∧
    detectSandwiches
        [⟨"t1", "a", "p", 0, 0⟩, ⟨"t2", "b", "p", 1, 0⟩, ⟨"t3", "a", "p", 2, 0⟩,
         ⟨"t4", "b", "p", 3, 0⟩, ⟨"t5", "a", "p", 4, 0⟩] "7"
      = [⟨"p", "a", "b", "t1", "t2", "t3", "7"⟩] := by
  refine ⟨?_, ?_, ?_⟩ <;> rfl

/-- Transactions of a block as delivered by `eth_getBlockByNumber` with full
objects: hash and sender. -/
structure blockTx where
  Hash : String
  From : String
deriving Repr, DecidableEq

/-- Model of the `block` struct. -/
structure block where
  Number : String
  Hash : String
  Timestamp : String
  Transactions : List blockTx
deriving Repr, DecidableEq

/-- One event log of a receipt: emitting contract address and topic list. -/
structure logEntry where
  Address : String
  Topics : List String
deriving Repr, DecidableEq

/-- Model of the `receipt` struct. -/
structure receipt where
  TransactionHash : String
  Logs : List logEntry
deriving Repr, DecidableEq

/-- Modelled from the source's `keccakTopic` initialization: the Keccak-256
topic of the Uniswap V2 `Swap` signature, precomputed as a constant (the hash
function itself is not re-verified; the claims depend only on the topics being
fixed strings). -/
def swapTopicV2 : String :=
  "0xd78ad95fa46c994b6551d0da85fc275fe613ce37657fb8d5e3d130840159d822"

/-- Modelled from the source's `keccakTopic` initialization: the Keccak-256
topic of the Uniswap V3 `Swap` signature, precomputed as a constant. -/
def swapTopicV3 : String :=
  "0xc42079f94a6350d7e6235f29174924f928cc2ac818eb64fed8004e115fbcca67"

/-- Candidate test applied to one log (`strings.ToLower` is modelled by
`String.toLower`): a swap event is produced when the first topic matches one
of the two signatures. -/
def logSwap (tx : blockTx) (txIdx logIdx : Nat) (lg : logEntry) :
    Option swapEvent :=
  match lg.Topics with
  | [] => none
  | t0 :: _ =>
      if t0.toLower = swapTopicV2 ∨ t0.toLower = swapTopicV3 then
        some ⟨tx.Hash.toLower, tx.From.toLower, lg.Address.toLower, txIdx, logIdx⟩
      else none

/-- Swaps found in one transaction: a failed or missing receipt is skipped,
otherwise every log is tested in log order. -/
def txSwaps (receipts : String → Option receipt) (txIdx : Nat) (tx : blockTx) :
    List swapEvent :=
  match receipts tx.Hash with
  | none => []
  | some rcpt => rcpt.Logs.enum.filterMap fun q => logSwap tx txIdx q.1 q.2

/-- The per-block scan bound `maxN` of `collectSwaps`: the smaller of the
configured cap and the transaction count. -/
def collectSwapsMaxN (cap : Nat) (b : block) : Nat :=
  if cap < b.Transactions.length then cap else b.Transactions.length

/-- Strict ordering used by the `sort.Slice` call of `collectSwaps`:
`TxIndex` first, `LogIndex` as tie-break. -/
def swapLt (a b : swapEvent) : Bool :=
  if a.TxIndex = b.TxIndex then decide (a.LogIndex < b.LogIndex)
  else decide (a.TxIndex < b.TxIndex)

/-- Non-strict companion of `swapLt`; sorting by the strict order yields a
list sorted under this relation. -/
def swapLe (a b : swapEvent) : Bool := ! swapLt b a

/-- Model of `collectSwaps`: scan the first `maxN` transactions in block
order, collect matching logs with their `(txIndex, logIndex)` position, then
sort by that pair (`receipts` stands for the `eth_getTransactionReceipt`
oracle). -/
def collectSwaps (receipts : String → Option receipt) (cap : Nat) (b : block) :
    List swapEvent :=
  (((b.Transactions.take (collectSwapsMaxN cap b)).enum).foldr
      (fun p acc => txSwaps receipts p.1 p.2 ++ acc) []).mergeSort swapLe

/-- Characterization of `swapLe` as the lexicographic order on
`(TxIndex, LogIndex)`. -/
theorem swapLe_iff (a b : swapEvent) : swapLe a b = true ↔
    (a.TxIndex < b.TxIndex ∨ (a.TxIndex = b.TxIndex ∧ a.LogIndex ≤ b.LogIndex)) := by
  simp only [swapLe, swapLt]
  by_cases h : b.TxIndex = a.TxIndex <;> simp [h] <;> omega

/-- Transitivity of `swapLe`. -/
theorem swapLe_trans (a b c : swapEvent) :
    swapLe a b = true → swapLe b c = true → swapLe a c = true := by
  simp only [swapLe_iff]; omega

/-- Totality of `swapLe`. -/
theorem swapLe_total (a b : swapEvent) : (swapLe a b || swapLe b a) = true := by
  simp only [Bool.or_eq_true, swapLe_iff]; omega

/-- C7: the extractor's output is sorted ascending by `(txIndex, logIndex)`,
and for a fixed block, receipt oracle and scan cap it is identical across
runs (it is a pure function of its inputs). -/
theorem collectSwaps_sorted_deterministic (receipts : String → Option receipt)
    (cap : Nat) (b : block) :
    List.Pairwise (fun x y => swapLe x y = true) (collectSwaps receipts cap b) ∧
    collectSwaps receipts cap b = collectSwaps receipts cap b := by
  constructor
  · unfold collectSwaps
    exact List.sorted_mergeSort swapLe_trans swapLe_total _
  · rfl

/- ## Scan-cap configuration `sandwichMaxTx` of `sandwich.go` -/

/-- Model of `envOr`: `value` is the raw environment string (`""` models an
unset variable, which is what `os.Getenv` returns then), replaced by the
fallback when empty. -/
def envOr (value fallback : String) : String :=
  if value ≠ "" then value else fallback

/-- Decimal digit test and value used by the `strconv.Atoi` model. -/
def digitVal (c : Char) : Option Nat :=
  if '0' ≤ c ∧ c ≤ '9' then some (c.toNat - '0'.toNat) else none

/-- Digit-string accumulator of the `strconv.Atoi` model. -/
def parseDigits : List Char → Nat → Option Nat
  | [], acc => some acc
  | c :: rest, acc =>
      match digitVal c with
      | some d => parseDigits rest (acc * 10 + d)
      | none => none

/-- Model of `strconv.Atoi`: optional sign, one or more decimal digits,
nothing else, and the value must fit a 64-bit signed integer; every other
input is an error (`none`), which the caller maps to the default. -/
def atoi (s : String) : Option Int :=
  match s.toList with
  | [] => none
  | c :: rest =>
      let signed : Bool × List Char :=
        if c = '-' then (true, rest)
        else if c = '+' then (false, rest)
        else (false, c :: rest)
      match signed.2 with
      | [] => none
      | ds =>
          match parseDigits ds 0 with
          | none => none
          | some n =>
              let v : Int := if signed.1 then -(n : Int) else (n : Int)
              if v < -(2 ^ 63) ∨ (2 ^ 63 - 1 : Int) < v then none else some v

/-- Model of the `sandwichMaxTx` initializer: read `SANDWICH_MAX_TX` with
default `"120"`, fall back to 120 on a parse error, and clamp to
`[10, 1000]`. -/
def sandwichMaxTx (env : String) : Nat :=
  match atoi (envOr env "120") with
  | none => 120
  | some n => (min (max n 10) 1000).toNat

/-- Bounds helper: the clamp keeps every parse outcome inside `[10, 1000]`. -/
theorem sandwichMaxTx_bounds (env : String) :
    10 ≤ sandwichMaxTx env ∧ sandwichMaxTx env ≤ 1000 := by
  unfold sandwichMaxTx
  rcases h : atoi (envOr env "120") with _ | n
  · simp [h]
  · simp only [h]
    omega

/-- C10: for every value of the `SANDWICH_MAX_TX` string the effective cap
lies in `[10, 1000]`; it is 120 when the variable is unset or unparseable; and
the per-block scan bound of `collectSwaps` therefore never exceeds 1000
transactions. -/
theorem sandwichMaxTx_clamped (env : String) (b : block) :
    10 ≤ sandwichMaxTx env ∧ sandwichMaxTx env ≤ 1000 ∧
    (atoi (envOr env "120") = none → sandwichMaxTx env = 120) ∧
    sandwichMaxTx "" = 120 ∧
    collectSwapsMaxN (sandwichMaxTx env) b ≤ 1000 := by
  refine ⟨(sandwichMaxTx_bounds env).1, (sandwichMaxTx_bounds env).2, ?_, by decide, ?_⟩
  · intro h; simp [sandwichMaxTx, h]
  · have h2 := (sandwichMaxTx_bounds env).2
    unfold collectSwapsMaxN
    split <;> omega

/-- Witness for C10 at an unparseable environment value and a concrete
block. -/
theorem sandwichMaxTx_clamped_witness :
    10 ≤ sandwichMaxTx "banana" ∧ sandwichMaxTx "banana" ≤ 1000 ∧
    (atoi (envOr "banana" "120") = none → sandwichMaxTx "banana" = 120) ∧
    sandwichMaxTx "" = 120 ∧
    collectSwapsMaxN (sandwichMaxTx "banana") ⟨"0x1", "0xh", "0x0", []⟩ ≤ 1000 :=
  sandwichMaxTx_clamped "banana" ⟨"0x1", "0xh", "0x0", []⟩

/- ## Mempool watcher of `mempool_ws.go` -/

/-- Model of the `PendingTx` struct kept in the rolling buffer. -/
structure PendingTx where
  Hash : String
  From : String
  To : Option String
  Value : String
  GasPrice : Option String
  Gas : Option String
  Nonce : String
  Input : String
  Timestamp : Int
deriving Repr, DecidableEq

/-- Buffer update performed by `dialAndConsume` on each accepted notification:
prepend the resolved transaction, then trim the buffer to the 10 most recent
entries. -/
def mempoolPush (buf : List PendingTx) (pt : PendingTx) : List PendingTx :=
  let b := pt :: buf
  if 10 < b.length then b.take 10 else b

/-- The push step always equals a take-10 of the prepended buffer. -/
theorem mempoolPush_eq_take (buf : List PendingTx) (pt : PendingTx) :
    mempoolPush buf pt = (pt :: buf).take 10 := by
  show (if 10 < (pt :: buf).length then (pt :: buf).take 10 else (pt :: buf))
      = (pt :: buf).take 10
  split
  · rfl
  · next h => rw [List.take_of_length_le (by omega)]

/-- Folding pushes over the buffer keeps the most-recent-first prefix of the
notifications (reversed) padded by the old buffer. -/
theorem mempool_foldl_eq (pts : List PendingTx) :
    ∀ buf : List PendingTx, buf.length ≤ 10 →
      pts.foldl mempoolPush buf = ((pts.reverse ++ buf).take 10 : List PendingTx) := by
  induction pts with
  | nil =>
      intro buf h
      simp [List.take_of_length_le h]
  | cons p ps ih =>
      intro buf h
      rw [List.foldl_cons, mempoolPush_eq_take,
        ih _ (by simp only [List.length_take]; omega)]
      rw [List.reverse_cons, List.append_assoc]
      rw [List.take_append_eq_append_take, List.take_append_eq_append_take,
        List.take_take]
      rw [Nat.min_eq_left (by omega)]
      simp

/-- C9: from any in-bound buffer (the watcher starts empty), after any
sequence of push notifications the rolling buffer holds at most 10 entries
and is ordered most-recent-first: it equals the first 10 elements of the
notifications in reverse arrival order followed by the old buffer. -/
theorem mempool_buffer_bounded_ordered (buf pts : List PendingTx)
    (h : buf.length ≤ 10) :
    (pts.foldl mempoolPush buf).length ≤ 10 ∧
    pts.foldl mempoolPush buf = ((pts.reverse ++ buf).take 10 : List PendingTx) := by
  have he := mempool_foldl_eq pts buf h
  refine ⟨?_, he⟩
  rw [he]
  simp only [List.length_take]
  omega

/-- Witness for C9 at an empty start buffer and two concrete
notifications. -/
theorem mempool_buffer_bounded_ordered_witness :
    (([⟨"0x1", "0xa", none, "0x0", none, none, "0x0", "0x", 1⟩,
       ⟨"0x2", "0xb", none, "0x0", none, none, "0x1", "0x", 2⟩] :
        List PendingTx).foldl mempoolPush []).length ≤ 10 ∧
    ([⟨"0x1", "0xa", none, "0x0", none, none, "0x0", "0x", 1⟩,
      ⟨"0x2", "0xb", none, "0x0", none, none, "0x1", "0x", 2⟩] :
        List PendingTx).foldl mempoolPush []
      = ((([⟨"0x1", "0xa", none, "0x0", none, none, "0x0", "0x", 1⟩,
            ⟨"0x2", "0xb", none, "0x0", none, none, "0x1", "0x", 2⟩] :
             List PendingTx).reverse ++ []).take 10 : List PendingTx) :=
  mempool_buffer_bounded_ordered []
    [⟨"0x1", "0xa", none, "0x0", none, none, "0x0", "0x", 1⟩,
     ⟨"0x2", "0xb", none, "0x0", none, none, "0x1", "0x", 2⟩] (by decide)

/-- Exit causes of one `dialAndConsume` session: one constructor per `return`
statement of the function. -/
inductive wsSessionExit where
  | dialError
  | subscribeWriteError
  | subscribeReadError
  | readError
deriving Repr, DecidableEq

/-- Return value of `dialAndConsume` by exit cause.  Every reachable path of
the source returns `false`; the `return true` after the consume loop is
unreachable dead code, which the source itself notes in comments. -/
def dialAndConsumeResult : wsSessionExit → Bool
  | wsSessionExit.dialError => false
  | wsSessionExit.subscribeWriteError => false
  | wsSessionExit.subscribeReadError => false
  | wsSessionExit.readError => false

/-- Base reconnect delay of `startMempoolSubscription` (3 seconds). -/
def mempoolBaseBackoff : Nat := 3

/-- One iteration of the reconnect loop of `startMempoolSubscription`: reset
to the base delay after a session reported successful, otherwise double the
delay and cap it at `maxBackoff`. -/
def mempoolReconnectStep (maxBackoff backoff : Nat) (e : wsSessionExit) : Nat :=
  if dialAndConsumeResult e then mempoolBaseBackoff
  else min (2 * backoff) maxBackoff

/-- Backoff delay after a sequence of sessions, starting from the base
delay. -/
def mempoolBackoffAfter (maxBackoff : Nat) (es : List wsSessionExit) : Nat :=
  es.foldl (mempoolReconnectStep maxBackoff) mempoolBaseBackoff

/-- The reconnect step never resets: it always doubles and caps, because the
session result is `false` for every exit cause. -/
theorem mempoolReconnectStep_eq (maxBackoff b : Nat) (e : wsSessionExit) :
    mempoolReconnectStep maxBackoff b e = min (2 * b) maxBackoff := by
  cases e <;> rfl

/-- Closed form of the pure doubling-with-cap recurrence. -/
theorem mempoolDoubling_closed (maxB : Nat) :
    ∀ (es : List wsSessionExit) (b : Nat), b ≤ maxB →
      es.foldl (fun acc _ => min (2 * acc) maxB) b = min (b * 2 ^ es.length) maxB := by
  intro es
  induction es with
  | nil =>
      intro b hb
      simp [Nat.min_eq_left hb]
  | cons e es ih =>
      intro b hb
      rw [List.foldl_cons, ih _ (Nat.min_le_right _ _)]
      have hdist : min (2 * b) maxB * 2 ^ es.length
          = min (2 * b * 2 ^ es.length) (maxB * 2 ^ es.length) := by
        rcases le_total (2 * b) maxB with hc | hc
        · rw [Nat.min_eq_left hc, Nat.min_eq_left (mul_le_mul_right' hc _)]
        · rw [Nat.min_eq_right hc, Nat.min_eq_right (mul_le_mul_right' hc _)]
      rw [hdist, min_assoc,
        Nat.min_eq_right (Nat.le_mul_of_pos_right _ (by positivity)),
        List.length_cons,
        show b * 2 ^ (es.length + 1) = 2 * b * 2 ^ es.length by ring]

/-- C6 counterexample: the claim requires some execution on which the reset
branch runs, i.e. some session after which `dialAndConsume` reports success;
but every exit cause yields `false`, so after a first failed session the delay
is already 6, never reset to 3. -/
theorem backoff_reset_never_taken_counterexample :
    dialAndConsumeResult wsSessionExit.dialError = false ∧
    dialAndConsumeResult wsSessionExit.subscribeWriteError = false ∧
    dialAndConsumeResult wsSessionExit.subscribeReadError = false ∧
    dialAndConsumeResult wsSessionExit.readError = false ∧
    mempoolBackoffAfter 300 [wsSessionExit.dialError] = 6 := by
  decide

/-- C6 (amended): the reconnect delay doubles on each session up to the
configured ceiling, and the reset branch is dead code — `dialAndConsume`
returns `false` on every path, so the loop coincides with unconditional
doubling-with-cap, with closed form `min(3 · 2^n, maxBackoff)` whenever the
ceiling is at least the base delay. -/
theorem mempool_backoff_doubles_no_reset (maxBackoff : Nat)
    (es : List wsSessionExit) (h : mempoolBaseBackoff ≤ maxBackoff) :
    mempoolBackoffAfter maxBackoff es
        = es.foldl (fun b _ => min (2 * b) maxBackoff) mempoolBaseBackoff ∧
    mempoolBackoffAfter maxBackoff es
        = min (mempoolBaseBackoff * 2 ^ es.length) maxBackoff := by
  have h1 : ∀ (l : List wsSessionExit) (b : Nat),
      l.foldl (mempoolReconnectStep maxBackoff) b
        = l.foldl (fun acc _ => min (2 * acc) maxBackoff) b := by
    intro l
    induction l with
    | nil => intro b; rfl
    | cons e l ih =>
        intro b
        rw [List.foldl_cons, List.foldl_cons, mempoolReconnectStep_eq, ih]
  have he := h1 es mempoolBaseBackoff
  exact ⟨he, he.trans (mempoolDoubling_closed maxBackoff es mempoolBaseBackoff h)⟩

/-- Witness for C6 (amended) at a concrete ceiling and session sequence. -/
theorem mempool_backoff_doubles_no_reset_witness :
    mempoolBackoffAfter 300 [wsSessionExit.readError, wsSessionExit.readError]
        = [wsSessionExit.readError, wsSessionExit.readError].foldl
            (fun b _ => min (2 * b) 300) mempoolBaseBackoff ∧
    mempoolBackoffAfter 300 [wsSessionExit.readError, wsSessionExit.readError]
        = min (mempoolBaseBackoff
            * 2 ^ ([wsSessionExit.readError, wsSessionExit.readError]).length) 300 :=
  mempool_backoff_doubles_no_reset 300
    [wsSessionExit.readError, wsSessionExit.readError] (by decide)
